import Mathlib

/-!
Shallow embedding of `scripts/download_aorc.py`: a single-pass pipeline that
opens a remote chunked precipitation dataset, subsets it in time and space,
computes a cosine-latitude-weighted spatial mean, runs two QA metrics and
writes a gridded file plus a tabular (CSV) series.

Conventions of the embedding:
* timestamps are hour numbers (`Nat`);
* coordinate values (latitude/longitude, in degrees) are rationals (`ℚ`),
  matching exact float literals such as `37.60`;
* data values and the derived weights/means are reals (`ℝ`), since the
  weights are `cos (radians lat)`;
* the remote store is an oracle `tryOpen : Bool → Except String Dataset`
  mapping the `consolidated` flag to the outcome of `xr.open_zarr`;
* fatal errors are the `Except.error` branch, and the output files exist
  exactly when the run returns `Except.ok`, mirroring the fact that all
  writes happen last and an uncaught exception aborts before them.
-/

namespace Aorc

/-- A labeled multi-dimensional dataset: variable names, coordinate names,
and the time/latitude/longitude coordinate arrays of the `apcp` variable,
with the data as a function of (time, lat, lon). -/
structure Dataset where
  vars : List String
  coords : List String
  times : List Nat
  lats : List ℚ
  lons : List ℚ
  data : Nat → ℚ → ℚ → ℝ

/-- The boolean `coordinate[0] <= coordinate[-1]` computed by `_get_slice`
(junk value on the empty array, which the source would reject). -/
def coordAscending (coordinate : List ℚ) : Bool :=
  decide (coordinate.head?.getD 0 ≤ coordinate.getLast?.getD 0)

/-- Embedding of `_get_slice`: return an order-safe `(start, stop)` label
slice for ascending or descending coordinates. -/
def _get_slice (min_value max_value : ℚ) (coordinate : List ℚ) : ℚ × ℚ :=
  if coordAscending coordinate then (min_value, max_value)
  else (max_value, min_value)

/-- Label-based slice selection of `xarray`/`pandas` on a monotonic index:
on an ascending index, `slice(a, b)` keeps the values `v` with `a ≤ v ≤ b`;
on a descending index it keeps the values `v` with `b ≤ v ≤ a`, in stored
order in both cases. -/
def selSlice (s : ℚ × ℚ) (coordinate : List ℚ) : List ℚ :=
  if coordAscending coordinate then
    coordinate.filter (fun v => decide (s.1 ≤ v) && decide (v ≤ s.2))
  else
    coordinate.filter (fun v => decide (s.2 ≤ v) && decide (v ≤ s.1))

/-- Embedding of the `"apcp" not in ds` check run after a successful open:
the dataset handle is returned unchanged when the variable is present, and
the missing-variable error is raised otherwise. -/
def checkApcp (ds : Dataset) : Except String Dataset :=
  if "apcp" ∈ ds.vars then .ok ds
  else .error "Variable apcp not found in dataset."

/-- Embedding of `open_aorc_dataset`: the store is an oracle mapping the
`consolidated` flag to the outcome of `xr.open_zarr`.  The consolidated
attempt is made first; on any failure a warning is logged and the open is
retried exactly once without consolidation; the `apcp` presence check runs
on whichever handle was obtained.  Returns the warning log together with
the result. -/
def open_aorc_dataset (tryOpen : Bool → Except String Dataset) :
    List String × Except String Dataset :=
  match tryOpen true with
  | .ok ds => ([], checkApcp ds)
  | .error exc =>
    (["Consolidated open failed (" ++ exc ++ "); retrying without consolidation"],
     match tryOpen false with
     | .ok ds => checkApcp ds
     | .error e => .error e)

/-- Embedding of `np.deg2rad`. -/
noncomputable def deg2rad (d : ℝ) : ℝ := d * (Real.pi / 180)

/-- Embedding of `np.cos(np.deg2rad(lat))`: the area weight of one latitude
row.  Weights depend on latitude only and are broadcast across longitude. -/
noncomputable def latWeight (lat : ℚ) : ℝ := Real.cos (deg2rad (lat : ℝ))

/-- Denominator of the `xarray` weighted mean over both spatial dimensions:
the sum of the broadcast weights, i.e. each row weight counted once per
longitude column of that row. -/
noncomputable def totalWeight (lats : List ℚ) (grid : List (List ℝ)) : ℝ :=
  ((lats.zip grid).map (fun p => latWeight p.1 * (p.2.length : ℝ))).sum

/-- Embedding of `subset.weighted(weights).mean(dim=(lat_name, lon_name))`
at one time step: the grid is a list of rows, one row per latitude value,
and the weighted mean is `sum (w * x) / sum w` with the latitude weights
broadcast across each row. -/
noncomputable def weightedMean (lats : List ℚ) (grid : List (List ℝ)) : ℝ :=
  (((lats.zip grid).map (fun p => latWeight p.1 * p.2.sum)).sum) /
    totalWeight lats grid

/-- The spatial grid of the subset variable at one time step: one row per
selected latitude, one column per selected longitude. -/
def subsetGrid (ds : Dataset) (latSel lonSel : List ℚ) (t : Nat) :
    List (List ℝ) :=
  latSel.map (fun la => lonSel.map (fun lo => ds.data t la lo))

/-- Embedding of the materialized `area_mean` series: one `(time, value)`
pair per selected time step. -/
noncomputable def areaMeanSeries (ds : Dataset) (timeSel : List Nat)
    (latSel lonSel : List ℚ) : List (Nat × ℝ) :=
  timeSel.map (fun t => (t, weightedMean latSel (subsetGrid ds latSel lonSel t)))

/-- Embedding of `pd.date_range(TIME_START, TIME_END, freq="h")`: every
hour number from `startH` to `endH` inclusive. -/
def expectedHours (startH endH : Nat) : List Nat :=
  (List.range (endH + 1 - startH)).map (· + startH)

/-- Embedding of `len(expected_index.difference(actual_index))`: the number
of expected hours that are absent from the actual timestamps. -/
def missingHours (startH endH : Nat) (actual : List Nat) : Nat :=
  ((expectedHours startH endH).filter (fun h => decide (h ∉ actual))).length

/-- Scan underlying `Series.idxmax`: fold over the remaining pairs keeping
the current best `(timestamp, value)`, replacing it only on a strictly
larger value (so the first occurrence of the maximum wins). -/
def idxmaxFrom {α : Type} [LinearOrder α] :
    List (Nat × α) → Nat × α → Nat
  | [], best => best.1
  | p :: rest, best =>
      if best.2 < p.2 then idxmaxFrom rest p else idxmaxFrom rest best

/-- Embedding of `area_mean_series.idxmax()`: timestamp of the first
occurrence of the maximum value, `none` on the empty series (where pandas
raises). -/
def idxmax {α : Type} [LinearOrder α] : List (Nat × α) → Option Nat
  | [] => none
  | p :: rest => some (idxmaxFrom rest p)

/-- Scan underlying `Series.max`. -/
def maxValFrom {α : Type} [LinearOrder α] : List (Nat × α) → α → α
  | [], best => best
  | p :: rest, best => maxValFrom rest (max best p.2)

/-- Embedding of `area_mean_series.max()`: the largest value of the series,
`none` on the empty series. -/
def seriesMax {α : Type} [LinearOrder α] : List (Nat × α) → Option α
  | [] => none
  | p :: rest => some (maxValFrom rest p.2)

/-- Embedding of `lat_name = "latitude" if "latitude" in apcp.coords else
"lat"`. -/
def resolveLat (coords : List String) : String :=
  if "latitude" ∈ coords then "latitude" else "lat"

/-- Embedding of `lon_name = "longitude" if "longitude" in apcp.coords
else "lon"`. -/
def resolveLon (coords : List String) : String :=
  if "longitude" ∈ coords then "longitude" else "lon"

/-- The two artifacts written at the end of a successful run, plus the two
QA metrics that are computed and logged before the writes.  The gridded
NetCDF file is the subset under the variable name `apcp`; the CSV file is
one header row followed by one `(time, value)` row per timestamp of the
materialized series. -/
structure Outputs where
  netcdfVarName : String
  netcdfTimes : List Nat
  netcdfLats : List ℚ
  netcdfLons : List ℚ
  csvHeader : List String
  csvRows : List (Nat × ℝ)
  missing : Nat
  maxTimestamp : Option Nat
  maxValue : Option ℝ

/-- Embedding of the stages of `main` that follow the open: resolve the
coordinate names, subset in time and space with the order-safe slices,
require a non-empty time dimension, compute the weighted area mean and the
QA metrics, and produce the two output artifacts.  A fatal error is the
`Except.error` branch; both writes happen only after every check, so an
error means no output file is written. -/
noncomputable def mainWithDs (ds : Dataset)
    (tStart tEnd : Nat) (latMin latMax lonMin lonMax : ℚ) :
    Except String Outputs :=
  let latName := resolveLat ds.coords
    let lonName := resolveLon ds.coords
    if latName ∉ ds.coords ∨ lonName ∉ ds.coords then
      .error "Could not find latitude/longitude coordinates in dataset"
    else
      let timeSel := ds.times.filter (fun t => decide (tStart ≤ t) && decide (t ≤ tEnd))
      let latSel := selSlice (_get_slice latMin latMax ds.lats) ds.lats
      let lonSel := selSlice (_get_slice lonMin lonMax ds.lons) ds.lons
      if timeSel.length = 0 then
        .error "No time steps found in requested subset."
      else
        let series := areaMeanSeries ds timeSel latSel lonSel
        .ok
          { netcdfVarName := "apcp"
            netcdfTimes := timeSel
            netcdfLats := latSel
            netcdfLons := lonSel
            csvHeader := ["time", "apcp_area_mean"]
            csvRows := series
            missing := missingHours tStart tEnd timeSel
            maxTimestamp := idxmax series
            maxValue := seriesMax series }

/-- Embedding of `main`: the opened handle is fed to the post-open stages
of `mainWithDs`; an open (or missing-variable) failure aborts the run
before any subsetting or writing. -/
noncomputable def mainRun (tryOpen : Bool → Except String Dataset)
    (tStart tEnd : Nat) (latMin latMax lonMin lonMax : ℚ) :
    Except String Outputs :=
  match (open_aorc_dataset tryOpen).2 with
  | .error e => .error e
  | .ok ds => mainWithDs ds tStart tEnd latMin latMax lonMin lonMax

/-- Decides whether a run reached the write phase (both artifacts written). -/
def runSucceeds : Except String Outputs → Bool
  | .ok _ => true
  | .error _ => false

/-- A small concrete dataset fixture: has `apcp`, both long coordinate
spellings, three hourly steps, a 2 by 2 spatial grid, all-zero data. -/
noncomputable def dsApcp : Dataset :=
  { vars := ["apcp"]
    coords := ["latitude", "longitude"]
    times := [0, 1, 2]
    lats := [10, 20]
    lons := [30, 40]
    data := fun _ _ _ => 0 }

/-- A store oracle for which every open attempt succeeds with `dsApcp`. -/
noncomputable def oracleGood : Bool → Except String Dataset :=
  fun _ => .ok dsApcp

/-- A store oracle whose consolidated open fails and whose unconsolidated
fallback succeeds with `dsApcp`. -/
noncomputable def oracleFlaky : Bool → Except String Dataset :=
  fun consolidated =>
    if consolidated then .error "connection reset" else .ok dsApcp

/-- The outputs of a successful run of `mainRun oracleGood 0 2 5 25 25 45`. -/
noncomputable def outGood : Outputs :=
  { netcdfVarName := "apcp"
    netcdfTimes := [0, 1, 2]
    netcdfLats := [10, 20]
    netcdfLons := [30, 40]
    csvHeader := ["time", "apcp_area_mean"]
    csvRows := areaMeanSeries dsApcp [0, 1, 2] [10, 20] [30, 40]
    missing := missingHours 0 2 [0, 1, 2]
    maxTimestamp := idxmax (areaMeanSeries dsApcp [0, 1, 2] [10, 20] [30, 40])
    maxValue := seriesMax (areaMeanSeries dsApcp [0, 1, 2] [10, 20] [30, 40]) }

/-- The composite of `_get_slice` with slice selection always keeps exactly
the coordinate values inside `[min_value, max_value]`, because the slice is
built from the same ascending test that governs the selection direction. -/
theorem selSlice_get_slice (min_value max_value : ℚ) (coordinate : List ℚ) :
    selSlice (_get_slice min_value max_value coordinate) coordinate =
      coordinate.filter (fun v => decide (min_value ≤ v) && decide (v ≤ max_value)) := by
  unfold selSlice _get_slice
  by_cases h : coordAscending coordinate = true
  · simp [h]
  · simp [h]

/-- C1: for a latitude/longitude coordinate array stored ascending or
descending and bounds `min_value ≤ max_value`, selecting with the slice
built by `_get_slice` yields the same set of coordinate values as selecting
from the reversed (opposite-order) array, and the selection is non-empty
whenever `[min_value, max_value]` contains at least one coordinate value of
the array. -/
theorem C1_get_slice_order_safe (min_value max_value : ℚ) (coordinate : List ℚ)
    (hne : coordinate ≠ [])
    (hmono : coordinate.Sorted (· ≤ ·) ∨ coordinate.Sorted (· ≥ ·))
    (hmm : min_value ≤ max_value) :
    (selSlice (_get_slice min_value max_value coordinate) coordinate).toFinset =
      (selSlice (_get_slice min_value max_value coordinate.reverse)
          coordinate.reverse).toFinset
    ∧ ((∃ v ∈ coordinate, min_value ≤ v ∧ v ≤ max_value) →
        selSlice (_get_slice min_value max_value coordinate) coordinate ≠ []) := by
  constructor
  · rw [selSlice_get_slice, selSlice_get_slice]
    ext x
    simp [List.mem_filter]
  · rintro ⟨v, hv, h1, h2⟩ hcon
    rw [selSlice_get_slice] at hcon
    have hvmem : v ∈ coordinate.filter
        (fun v => decide (min_value ≤ v) && decide (v ≤ max_value)) := by
      simp [List.mem_filter, hv, h1, h2]
    rw [hcon] at hvmem
    exact absurd hvmem (List.not_mem_nil v)

/-- Witness for C1 at the ascending array `[1, 2, 3]` with bounds `[1, 2]`. -/
theorem C1_get_slice_order_safe_witness :
    (([(1 : ℚ), 2, 3] : List ℚ) ≠ [] ∧
      (([(1 : ℚ), 2, 3] : List ℚ).Sorted (· ≤ ·) ∨
        ([(1 : ℚ), 2, 3] : List ℚ).Sorted (· ≥ ·)) ∧
      (1 : ℚ) ≤ 2) ∧
    ((selSlice (_get_slice 1 2 [(1 : ℚ), 2, 3]) [(1 : ℚ), 2, 3]).toFinset =
        (selSlice (_get_slice 1 2 ([(1 : ℚ), 2, 3] : List ℚ).reverse)
            ([(1 : ℚ), 2, 3] : List ℚ).reverse).toFinset
      ∧ ((∃ v ∈ ([(1 : ℚ), 2, 3] : List ℚ), 1 ≤ v ∧ v ≤ 2) →
          selSlice (_get_slice 1 2 [(1 : ℚ), 2, 3]) [(1 : ℚ), 2, 3] ≠ [])) :=
  ⟨⟨by decide, Or.inl (by decide), by norm_num⟩,
    C1_get_slice_order_safe 1 2 [1, 2, 3] (by decide) (Or.inl (by decide))
      (by norm_num)⟩

/-- C6: the connector first attempts the consolidated open; if it succeeds
no warning is logged and only the `apcp` check follows; on any failure a
warning is logged and exactly one unconsolidated retry is made, whose
success recovers the pipeline; only a failure of that fallback is returned
as a fatal error. -/
theorem C6_consolidated_fallback (tryOpen : Bool → Except String Dataset) :
    (∀ ds, tryOpen true = .ok ds →
        open_aorc_dataset tryOpen = ([], checkApcp ds)) ∧
    (∀ exc ds, tryOpen true = .error exc → tryOpen false = .ok ds →
        open_aorc_dataset tryOpen =
          (["Consolidated open failed (" ++ exc ++ "); retrying without consolidation"],
            checkApcp ds)) ∧
    (∀ exc e, tryOpen true = .error exc → tryOpen false = .error e →
        open_aorc_dataset tryOpen =
          (["Consolidated open failed (" ++ exc ++ "); retrying without consolidation"],
            .error e)) := by
  refine ⟨?_, ?_, ?_⟩
  · intro ds h
    simp [open_aorc_dataset, h]
  · intro exc ds h1 h2
    simp [open_aorc_dataset, h1, h2]
  · intro exc e h1 h2
    simp [open_aorc_dataset, h1, h2]

/-- Witness for C6 on the flaky oracle: the consolidated failure is
recovered by the logged unconsolidated retry. -/
theorem C6_consolidated_fallback_witness :
    oracleFlaky true = .error "connection reset" ∧
    oracleFlaky false = .ok dsApcp ∧
    open_aorc_dataset oracleFlaky =
      (["Consolidated open failed (" ++ "connection reset" ++
          "); retrying without consolidation"],
        checkApcp dsApcp) :=
  ⟨by simp [oracleFlaky], by simp [oracleFlaky],
    (C6_consolidated_fallback oracleFlaky).2.1 "connection reset" dsApcp
      (by simp [oracleFlaky]) (by simp [oracleFlaky])⟩

/-- C7: after a successful (consolidated) open, a dataset holding `apcp`
is returned unchanged, and a dataset lacking `apcp` yields the fatal
missing-variable error; in both cases no warning is logged and the
fallback open is never consulted. -/
theorem C7_missing_variable (tryOpen : Bool → Except String Dataset)
    (ds : Dataset) (h : tryOpen true = .ok ds) :
    ("apcp" ∈ ds.vars → open_aorc_dataset tryOpen = ([], .ok ds)) ∧
    ("apcp" ∉ ds.vars → open_aorc_dataset tryOpen =
        ([], .error "Variable apcp not found in dataset.")) := by
  constructor
  · intro hm
    simp [open_aorc_dataset, h, checkApcp, hm]
  · intro hm
    simp [open_aorc_dataset, h, checkApcp, hm]

/-- Witness for C7 on the always-ok oracle and the `apcp`-holding fixture. -/
theorem C7_missing_variable_witness :
    oracleGood true = .ok dsApcp ∧
    (("apcp" ∈ dsApcp.vars → open_aorc_dataset oracleGood = ([], .ok dsApcp)) ∧
      ("apcp" ∉ dsApcp.vars → open_aorc_dataset oracleGood =
          ([], .error "Variable apcp not found in dataset."))) :=
  ⟨rfl, C7_missing_variable oracleGood dsApcp rfl⟩

/-- A successful open hands its dataset unchanged to the post-open stages. -/
theorem mainRun_ok (tryOpen : Bool → Except String Dataset) (ds : Dataset)
    (tStart tEnd : Nat) (latMin latMax lonMin lonMax : ℚ)
    (h : (open_aorc_dataset tryOpen).2 = .ok ds) :
    mainRun tryOpen tStart tEnd latMin latMax lonMin lonMax =
      mainWithDs ds tStart tEnd latMin latMax lonMin lonMax := by
  unfold mainRun
  rw [h]

/-- The resolved latitude name is itself a coordinate name exactly when one
of the two accepted spellings is present. -/
theorem resolveLat_not_mem (coords : List String) :
    resolveLat coords ∉ coords ↔
      ("latitude" ∉ coords ∧ "lat" ∉ coords) := by
  unfold resolveLat
  by_cases hl : "latitude" ∈ coords <;> simp [hl]

/-- The resolved longitude name is itself a coordinate name exactly when
one of the two accepted spellings is present. -/
theorem resolveLon_not_mem (coords : List String) :
    resolveLon coords ∉ coords ↔
      ("longitude" ∉ coords ∧ "lon" ∉ coords) := by
  unfold resolveLon
  by_cases hl : "longitude" ∈ coords <;> simp [hl]

/-- C8: coordinate resolution accepts either spelling of each spatial
coordinate, prefers the long spelling when it is present, and the pipeline
fails with the coordinate-not-found fatal error exactly when neither
spelling of some required coordinate is present. -/
theorem C8_coord_resolution (tryOpen : Bool → Except String Dataset)
    (ds : Dataset) (tStart tEnd : Nat) (latMin latMax lonMin lonMax : ℚ)
    (h : (open_aorc_dataset tryOpen).2 = .ok ds) :
    ("latitude" ∈ ds.coords → resolveLat ds.coords = "latitude") ∧
    ("latitude" ∉ ds.coords → resolveLat ds.coords = "lat") ∧
    ("longitude" ∈ ds.coords → resolveLon ds.coords = "longitude") ∧
    ("longitude" ∉ ds.coords → resolveLon ds.coords = "lon") ∧
    (mainRun tryOpen tStart tEnd latMin latMax lonMin lonMax =
        .error "Could not find latitude/longitude coordinates in dataset" ↔
      (("latitude" ∉ ds.coords ∧ "lat" ∉ ds.coords) ∨
        ("longitude" ∉ ds.coords ∧ "lon" ∉ ds.coords))) := by
  refine ⟨fun hm => by simp [resolveLat, hm],
    fun hm => by simp [resolveLat, hm],
    fun hm => by simp [resolveLon, hm],
    fun hm => by simp [resolveLon, hm], ?_⟩
  rw [mainRun_ok tryOpen ds tStart tEnd latMin latMax lonMin lonMax h]
  simp only [mainWithDs]
  by_cases hc : resolveLat ds.coords ∉ ds.coords ∨ resolveLon ds.coords ∉ ds.coords
  · rw [if_pos hc]
    simp only [resolveLat_not_mem, resolveLon_not_mem] at hc
    simp [hc]
  · rw [if_neg hc]
    simp only [resolveLat_not_mem, resolveLon_not_mem, not_or] at hc
    by_cases ht :
        (ds.times.filter (fun t => decide (tStart ≤ t) && decide (t ≤ tEnd))).length = 0
    · rw [if_pos ht]
      constructor
      · intro hco
        exact absurd (Except.error.inj hco) (by decide)
      · intro hco
        exact absurd hco (by simp [hc.1, hc.2])
    · rw [if_neg ht]
      constructor
      · intro hco
        exact absurd hco (by simp)
      · intro hco
        exact absurd hco (by simp [hc.1, hc.2])

/-- Witness for C8 at the fixture dataset carrying both long spellings. -/
theorem C8_coord_resolution_witness :
    (open_aorc_dataset oracleGood).2 = .ok dsApcp ∧
    (("latitude" ∈ dsApcp.coords → resolveLat dsApcp.coords = "latitude") ∧
      ("latitude" ∉ dsApcp.coords → resolveLat dsApcp.coords = "lat") ∧
      ("longitude" ∈ dsApcp.coords → resolveLon dsApcp.coords = "longitude") ∧
      ("longitude" ∉ dsApcp.coords → resolveLon dsApcp.coords = "lon") ∧
      (mainRun oracleGood 0 2 5 25 25 45 =
          .error "Could not find latitude/longitude coordinates in dataset" ↔
        (("latitude" ∉ dsApcp.coords ∧ "lat" ∉ dsApcp.coords) ∨
          ("longitude" ∉ dsApcp.coords ∧ "lon" ∉ dsApcp.coords)))) :=
  ⟨rfl, C8_coord_resolution oracleGood dsApcp 0 2 5 25 25 45 rfl⟩

/-- C3 counterexample: a bounding box entirely outside the spatial
coverage of the fixture (both slice selections are empty) does not raise
the empty-subset fatal condition when the requested time window overlaps
the dataset times; the run reaches the write phase instead. -/
theorem C3_counterexample :
    (∀ v ∈ dsApcp.lats, v < 50) ∧ (∀ v ∈ dsApcp.lons, v < 70) ∧
    selSlice (_get_slice 50 60 dsApcp.lats) dsApcp.lats = [] ∧
    selSlice (_get_slice 70 80 dsApcp.lons) dsApcp.lons = [] ∧
    mainRun oracleGood 0 2 50 60 70 80 ≠
      .error "No time steps found in requested subset." ∧
    runSucceeds (mainRun oracleGood 0 2 50 60 70 80) = true := by
  have hok : runSucceeds (mainRun oracleGood 0 2 50 60 70 80) = true := rfl
  refine ⟨by decide, by decide, by decide, by decide, ?_, hok⟩
  intro hco
  rw [hco] at hok
  exact absurd hok (by simp [runSucceeds])

/-- C3 amended: with an opened dataset whose coordinates resolve, the
empty-subset fatal condition is raised exactly when the requested time
window selects no time step, and in that case no output is produced; when
the time selection is non-empty the run succeeds and writes both artifacts
even if the bounding box is outside the spatial coverage. -/
theorem C3_empty_subset_amended (tryOpen : Bool → Except String Dataset)
    (ds : Dataset) (tStart tEnd : Nat) (latMin latMax lonMin lonMax : ℚ)
    (h : (open_aorc_dataset tryOpen).2 = .ok ds)
    (hlat : "latitude" ∈ ds.coords ∨ "lat" ∈ ds.coords)
    (hlon : "longitude" ∈ ds.coords ∨ "lon" ∈ ds.coords) :
    (mainRun tryOpen tStart tEnd latMin latMax lonMin lonMax =
        .error "No time steps found in requested subset." ↔
      ds.times.filter (fun t => decide (tStart ≤ t) && decide (t ≤ tEnd)) = []) ∧
    (ds.times.filter (fun t => decide (tStart ≤ t) && decide (t ≤ tEnd)) ≠ [] →
      ∃ out, mainRun tryOpen tStart tEnd latMin latMax lonMin lonMax = .ok out) := by
  rw [mainRun_ok tryOpen ds tStart tEnd latMin latMax lonMin lonMax h]
  simp only [mainWithDs]
  have hc : ¬(resolveLat ds.coords ∉ ds.coords ∨ resolveLon ds.coords ∉ ds.coords) := by
    rw [not_or, resolveLat_not_mem, resolveLon_not_mem]
    constructor
    · rw [not_and_or, not_not, not_not]
      exact hlat
    · rw [not_and_or, not_not, not_not]
      exact hlon
  rw [if_neg hc]
  by_cases ht :
      (ds.times.filter (fun t => decide (tStart ≤ t) && decide (t ≤ tEnd))).length = 0
  · rw [if_pos ht]
    rw [List.length_eq_zero] at ht
    constructor
    · simp [ht]
    · intro hne
      exact absurd ht hne
  · rw [if_neg ht]
    have hne : ds.times.filter (fun t => decide (tStart ≤ t) && decide (t ≤ tEnd)) ≠ [] := by
      intro hnil
      rw [hnil] at ht
      exact ht rfl
    constructor
    · simp [hne]
    · intro _
      exact ⟨_, rfl⟩

/-- Witness for the amended C3: a time window disjoint from the fixture
times makes the time selection empty and the run raises the empty-subset
condition. -/
theorem C3_empty_subset_amended_witness :
    ((open_aorc_dataset oracleGood).2 = .ok dsApcp ∧
      ("latitude" ∈ dsApcp.coords ∨ "lat" ∈ dsApcp.coords) ∧
      ("longitude" ∈ dsApcp.coords ∨ "lon" ∈ dsApcp.coords)) ∧
    ((mainRun oracleGood 5 9 5 25 25 45 =
        .error "No time steps found in requested subset." ↔
      dsApcp.times.filter (fun t => decide (5 ≤ t) && decide (t ≤ 9)) = []) ∧
      (dsApcp.times.filter (fun t => decide (5 ≤ t) && decide (t ≤ 9)) ≠ [] →
        ∃ out, mainRun oracleGood 5 9 5 25 25 45 = .ok out)) :=
  ⟨⟨rfl, Or.inl (by decide), Or.inl (by decide)⟩,
    C3_empty_subset_amended oracleGood dsApcp 5 9 5 25 25 45 rfl
      (Or.inl (by decide)) (Or.inl (by decide))⟩

/-- Every hour of the inclusive range is listed exactly once. -/
theorem expectedHours_mem (startH endH h : Nat) :
    h ∈ expectedHours startH endH ↔ startH ≤ h ∧ h ≤ endH := by
  unfold expectedHours
  simp only [List.mem_map, List.mem_range]
  constructor
  · rintro ⟨k, hk, rfl⟩
    omega
  · rintro ⟨h1, h2⟩
    exact ⟨h - startH, by omega, by omega⟩

/-- The expected-hours list has no duplicates. -/
theorem expectedHours_nodup (startH endH : Nat) :
    (expectedHours startH endH).Nodup :=
  (List.nodup_range _).map fun a b hab => by omega

/-- C4: the missing-hours metric equals the cardinality of the set
difference between the expected hour-aligned timestamps of the inclusive
requested interval and the actual timestamps, and it vanishes exactly when
every hour of the interval is present in the actual timestamps. -/
theorem C4_missing_hours (startH endH : Nat) (actual : List Nat) :
    missingHours startH endH actual =
      (Finset.Icc startH endH \ actual.toFinset).card ∧
    (missingHours startH endH actual = 0 ↔
      ∀ h ∈ Finset.Icc startH endH, h ∈ actual) := by
  have hcard : missingHours startH endH actual =
      (Finset.Icc startH endH \ actual.toFinset).card := by
    unfold missingHours
    have hnd : ((expectedHours startH endH).filter
        (fun h => decide (h ∉ actual))).Nodup :=
      (expectedHours_nodup startH endH).filter _
    rw [← List.toFinset_card_of_nodup hnd]
    congr 1
    ext x
    simp only [List.mem_toFinset, List.mem_filter, expectedHours_mem,
      Finset.mem_sdiff, Finset.mem_Icc, decide_eq_true_eq]
  refine ⟨hcard, ?_⟩
  rw [hcard, Finset.card_eq_zero, Finset.sdiff_eq_empty_iff_subset,
    Finset.subset_iff]
  simp only [List.mem_toFinset]

/-- The idxmax scan never moves off a best value that dominates the rest. -/
theorem idxmaxFrom_of_le {α : Type} [LinearOrder α] (l : List (Nat × α))
    (best : Nat × α) (h : ∀ p ∈ l, p.2 ≤ best.2) :
    idxmaxFrom l best = best.1 := by
  induction l generalizing best with
  | nil => rfl
  | cons q rest ih =>
    simp only [idxmaxFrom]
    rw [if_neg (not_lt.mpr (h q (by simp)))]
    exact ih best fun p hp => h p (by simp [hp])

/-- The idxmax scan lands on the first strictly dominating pair. -/
theorem idxmaxFrom_split {α : Type} [LinearOrder α] (pre post : List (Nat × α))
    (tv : Nat × α) (hpost : ∀ p ∈ post, p.2 ≤ tv.2) :
    ∀ best : Nat × α, (∀ p ∈ pre, p.2 < tv.2) → best.2 < tv.2 →
      idxmaxFrom (pre ++ tv :: post) best = tv.1 := by
  induction pre with
  | nil =>
    intro best _ hb
    simp only [List.nil_append, idxmaxFrom]
    rw [if_pos hb]
    exact idxmaxFrom_of_le post tv hpost
  | cons q pre ih =>
    intro best hpre hb
    simp only [List.cons_append, idxmaxFrom]
    by_cases hcmp : best.2 < q.2
    · rw [if_pos hcmp]
      exact ih q (fun p hp => hpre p (by simp [hp])) (hpre q (by simp))
    · rw [if_neg hcmp]
      exact ih best (fun p hp => hpre p (by simp [hp])) hb

/-- The max scan never moves off a best value that dominates the rest. -/
theorem maxValFrom_of_le {α : Type} [LinearOrder α] (l : List (Nat × α))
    (b : α) (h : ∀ p ∈ l, p.2 ≤ b) : maxValFrom l b = b := by
  induction l generalizing b with
  | nil => rfl
  | cons q rest ih =>
    simp only [maxValFrom]
    rw [max_eq_left (h q (by simp))]
    exact ih b fun p hp => h p (by simp [hp])

/-- The max scan computes the dominating value of the series. -/
theorem maxValFrom_split {α : Type} [LinearOrder α] (pre post : List (Nat × α))
    (tv : Nat × α) (hpost : ∀ p ∈ post, p.2 ≤ tv.2) :
    ∀ b : α, (∀ p ∈ pre, p.2 ≤ tv.2) → b ≤ tv.2 →
      maxValFrom (pre ++ tv :: post) b = tv.2 := by
  induction pre with
  | nil =>
    intro b _ hb
    simp only [List.nil_append, maxValFrom]
    rw [max_eq_right hb]
    exact maxValFrom_of_le post tv.2 hpost
  | cons q pre ih =>
    intro b hpre hb
    simp only [List.cons_append, maxValFrom]
    exact ih (max b q.2) (fun p hp => hpre p (by simp [hp]))
      (max_le hb (hpre q (by simp)))

/-- C5: writing the series as everything before the earliest maximum, the
earliest maximum pair `tv` itself, and the rest, the maximum metric reports
exactly the value `tv.2` and the timestamp `tv.1`; in particular a unique
maximum is reported at its own timestamp, and tied maxima are reported at
the earliest of their timestamps. -/
theorem C5_max_first_occurrence (pre post : List (Nat × ℝ)) (tv : Nat × ℝ)
    (hmax : ∀ p ∈ pre ++ tv :: post, p.2 ≤ tv.2)
    (hpre : ∀ p ∈ pre, p.2 < tv.2) :
    idxmax (pre ++ tv :: post) = some tv.1 ∧
    seriesMax (pre ++ tv :: post) = some tv.2 := by
  have hpost : ∀ p ∈ post, p.2 ≤ tv.2 := fun p hp => hmax p (by simp [hp])
  constructor
  · cases pre with
    | nil =>
      simp only [List.nil_append, idxmax, Option.some.injEq]
      exact idxmaxFrom_of_le post tv hpost
    | cons q pre2 =>
      simp only [List.cons_append, idxmax, Option.some.injEq]
      exact idxmaxFrom_split pre2 post tv hpost q
        (fun p hp => hpre p (by simp [hp])) (hpre q (by simp))
  · cases pre with
    | nil =>
      simp only [List.nil_append, seriesMax, Option.some.injEq]
      exact maxValFrom_of_le post tv.2 hpost
    | cons q pre2 =>
      simp only [List.cons_append, seriesMax, Option.some.injEq]
      exact maxValFrom_split pre2 post tv hpost q.2
        (fun p hp => hmax p (by simp [hp])) (le_of_lt (hpre q (by simp)))

/-- Witness for C5 on a series with tied maxima: the earlier tied
timestamp is reported. -/
theorem C5_max_first_occurrence_witness :
    ((∀ p ∈ [((0 : Nat), (1 : ℝ))] ++ ((1 : Nat), (5 : ℝ)) :: [((2 : Nat), (5 : ℝ))],
        p.2 ≤ (((1 : Nat), (5 : ℝ)) : Nat × ℝ).2) ∧
      (∀ p ∈ [((0 : Nat), (1 : ℝ))], p.2 < (((1 : Nat), (5 : ℝ)) : Nat × ℝ).2)) ∧
    (idxmax ([((0 : Nat), (1 : ℝ))] ++ ((1 : Nat), (5 : ℝ)) :: [((2 : Nat), (5 : ℝ))]) =
        some 1 ∧
      seriesMax ([((0 : Nat), (1 : ℝ))] ++ ((1 : Nat), (5 : ℝ)) :: [((2 : Nat), (5 : ℝ))]) =
        some 5) := by
  have hmax : ∀ p ∈ [((0 : Nat), (1 : ℝ))] ++ ((1 : Nat), (5 : ℝ)) :: [((2 : Nat), (5 : ℝ))],
      p.2 ≤ (((1 : Nat), (5 : ℝ)) : Nat × ℝ).2 := by
    intro p hp
    simp only [List.cons_append, List.nil_append, List.mem_cons,
      List.not_mem_nil, or_false] at hp
    rcases hp with h | h | h <;> subst h <;> norm_num
  have hpre : ∀ p ∈ [((0 : Nat), (1 : ℝ))], p.2 < (((1 : Nat), (5 : ℝ)) : Nat × ℝ).2 := by
    intro p hp
    simp only [List.mem_cons, List.not_mem_nil, or_false] at hp
    subst hp
    norm_num
  exact ⟨⟨hmax, hpre⟩,
    C5_max_first_occurrence [((0 : Nat), (1 : ℝ))] [((2 : Nat), (5 : ℝ))]
      ((1 : Nat), (5 : ℝ)) hmax hpre⟩

/-- C2: the weight of a latitude row is the cosine of the latitude in
radians, so the equator row weighs `cos 0 = 1`, the 60-degree row weighs
`cos (pi/3) = 1/2`, the equator row is weighted exactly twice as heavily,
and on a grid with `n` longitude columns whose rows are constant `a` (at 0
degrees) and `b` (at 60 degrees) the weighted spatial mean of a time step
is `(2a + b) / 3`. -/
theorem C2_cosine_weighting (a b : ℝ) (n : Nat) (hn : 0 < n) :
    latWeight 0 = 1 ∧ latWeight 60 = 1 / 2 ∧
    latWeight 0 = 2 * latWeight 60 ∧
    weightedMean [0, 60] [List.replicate n a, List.replicate n b] =
      (2 * a + b) / 3 := by
  have h0 : latWeight 0 = 1 := by
    unfold latWeight deg2rad
    norm_num
  have h60 : latWeight 60 = 1 / 2 := by
    unfold latWeight deg2rad
    have harg : ((60 : ℚ) : ℝ) * (Real.pi / 180) = Real.pi / 3 := by
      push_cast
      ring
    rw [harg, Real.cos_pi_div_three]
  refine ⟨h0, h60, by rw [h0, h60]; norm_num, ?_⟩
  unfold weightedMean totalWeight
  simp only [List.zip_cons_cons, List.zip_nil_left, List.map_cons,
    List.map_nil, List.sum_cons, List.sum_nil, List.sum_replicate,
    List.length_replicate, nsmul_eq_mul, h0, h60]
  have hn' : (n : ℝ) ≠ 0 := Nat.cast_ne_zero.mpr hn.ne'
  field_simp
  ring

/-- Witness for C2 with one longitude column and rows `a = 5`, `b = 2`:
the weighted mean is `(2 * 5 + 2) / 3 = 4`. -/
theorem C2_cosine_weighting_witness :
    0 < 1 ∧
    (latWeight 0 = 1 ∧ latWeight 60 = 1 / 2 ∧
      latWeight 0 = 2 * latWeight 60 ∧
      weightedMean [0, 60] [List.replicate 1 (5 : ℝ), List.replicate 1 (2 : ℝ)] =
        (2 * 5 + 2) / 3) :=
  ⟨Nat.one_pos, C2_cosine_weighting 5 2 1 Nat.one_pos⟩

/-- C9: on a successful run, the tabular artifact has exactly the header
row `time, apcp_area_mean`, one row per timestamp of the materialized
series (its time column is exactly the selected time steps, in order), and
the rows are sorted ascending in time whenever the source time axis is. -/
theorem C9_csv_shape (tryOpen : Bool → Except String Dataset) (ds : Dataset)
    (tStart tEnd : Nat) (latMin latMax lonMin lonMax : ℚ) (out : Outputs)
    (h : (open_aorc_dataset tryOpen).2 = .ok ds)
    (hrun : mainRun tryOpen tStart tEnd latMin latMax lonMin lonMax = .ok out) :
    out.csvHeader = ["time", "apcp_area_mean"] ∧
    out.csvRows.map Prod.fst =
      ds.times.filter (fun t => decide (tStart ≤ t) && decide (t ≤ tEnd)) ∧
    (ds.times.Sorted (· ≤ ·) → (out.csvRows.map Prod.fst).Sorted (· ≤ ·)) := by
  rw [mainRun_ok tryOpen ds tStart tEnd latMin latMax lonMin lonMax h] at hrun
  simp only [mainWithDs] at hrun
  by_cases hc : resolveLat ds.coords ∉ ds.coords ∨ resolveLon ds.coords ∉ ds.coords
  · rw [if_pos hc] at hrun
    cases hrun
  · rw [if_neg hc] at hrun
    by_cases ht :
        (ds.times.filter (fun t => decide (tStart ≤ t) && decide (t ≤ tEnd))).length = 0
    · rw [if_pos ht] at hrun
      cases hrun
    · rw [if_neg ht] at hrun
      have hout := Except.ok.inj hrun
      subst hout
      have hmap : (areaMeanSeries ds
            (ds.times.filter (fun t => decide (tStart ≤ t) && decide (t ≤ tEnd)))
            (selSlice (_get_slice latMin latMax ds.lats) ds.lats)
            (selSlice (_get_slice lonMin lonMax ds.lons) ds.lons)).map Prod.fst =
          ds.times.filter (fun t => decide (tStart ≤ t) && decide (t ≤ tEnd)) := by
        unfold areaMeanSeries
        rw [List.map_map]
        exact List.map_id _
      refine ⟨rfl, hmap, ?_⟩
      intro hs
      rw [hmap]
      exact hs.filter _

/-- Witness for C9 on a successful concrete run of the fixture. -/
theorem C9_csv_shape_witness :
    ((open_aorc_dataset oracleGood).2 = .ok dsApcp ∧
      mainRun oracleGood 0 2 5 25 25 45 = .ok outGood) ∧
    (outGood.csvHeader = ["time", "apcp_area_mean"] ∧
      outGood.csvRows.map Prod.fst =
        dsApcp.times.filter (fun t => decide (0 ≤ t) && decide (t ≤ 2)) ∧
      (dsApcp.times.Sorted (· ≤ ·) → (outGood.csvRows.map Prod.fst).Sorted (· ≤ ·))) :=
  ⟨⟨rfl, rfl⟩, C9_csv_shape oracleGood dsApcp 0 2 5 25 25 45 outGood rfl rfl⟩

/-- Each latitude strictly inside the polar caps has a strictly positive
cosine weight. -/
theorem latWeight_pos (la : ℚ) (h1 : -90 < la) (h2 : la < 90) :
    0 < latWeight la := by
  unfold latWeight deg2rad
  apply Real.cos_pos_of_mem_Ioo
  have hpi : (0 : ℝ) < Real.pi / 180 := by positivity
  constructor
  · have hlt : ((-90 : ℝ)) * (Real.pi / 180) < (la : ℝ) * (Real.pi / 180) := by
      apply mul_lt_mul_of_pos_right _ hpi
      exact_mod_cast h1
    calc -(Real.pi / 2) = (-90 : ℝ) * (Real.pi / 180) := by ring
      _ < (la : ℝ) * (Real.pi / 180) := hlt
  · have hlt : (la : ℝ) * (Real.pi / 180) < (90 : ℝ) * (Real.pi / 180) := by
      apply mul_lt_mul_of_pos_right _ hpi
      exact_mod_cast h2
    calc (la : ℝ) * (Real.pi / 180) < (90 : ℝ) * (Real.pi / 180) := hlt
      _ = Real.pi / 2 := by ring

/-- C10: on a non-empty subset whose latitudes all lie strictly between
-90 and 90 degrees and whose rows are non-empty, every cosine weight is
strictly positive, so the total weight of the spatial reduction is
strictly positive (in particular nonzero) and the weighted mean divides by
a nonzero denominator at every time step. -/
theorem C10_weights_positive (lats : List ℚ) (grid : List (List ℝ))
    (hrange : ∀ la ∈ lats, -90 < la ∧ la < 90)
    (hlen : grid.length = lats.length)
    (hlats : lats ≠ [])
    (hrows : ∀ row ∈ grid, row ≠ []) :
    (∀ la ∈ lats, 0 < latWeight la) ∧
    0 < totalWeight lats grid ∧ totalWeight lats grid ≠ 0 := by
  have hw : ∀ la ∈ lats, 0 < latWeight la :=
    fun la hla => latWeight_pos la (hrange la hla).1 (hrange la hla).2
  have hpos : 0 < totalWeight lats grid := by
    unfold totalWeight
    apply List.sum_pos
    · intro x hx
      obtain ⟨p, hp, rfl⟩ := List.mem_map.mp hx
      obtain ⟨h1, h2⟩ := List.of_mem_zip hp
      have hl : (0 : ℝ) < (p.2.length : ℝ) := by
        exact_mod_cast List.length_pos.mpr (hrows p.2 h2)
      exact mul_pos (hw p.1 h1) hl
    · intro hmn
      have hlen0 := congrArg List.length hmn
      simp only [List.length_map, List.length_zip, hlen, min_self,
        List.length_nil] at hlen0
      exact hlats (List.length_eq_zero.mp hlen0)
  exact ⟨hw, hpos, ne_of_gt hpos⟩

/-- Witness for C10 on the two-row grid at 0 and 60 degrees with one
column per row. -/
theorem C10_weights_positive_witness :
    ((∀ la ∈ [(0 : ℚ), 60], -90 < la ∧ la < 90) ∧
      ([[(1 : ℝ)], [2]] : List (List ℝ)).length = [(0 : ℚ), 60].length ∧
      [(0 : ℚ), 60] ≠ [] ∧
      (∀ row ∈ ([[(1 : ℝ)], [2]] : List (List ℝ)), row ≠ [])) ∧
    ((∀ la ∈ [(0 : ℚ), 60], 0 < latWeight la) ∧
      0 < totalWeight [0, 60] [[(1 : ℝ)], [2]] ∧
      totalWeight [0, 60] [[(1 : ℝ)], [2]] ≠ 0) := by
  have hrows : ∀ row ∈ ([[(1 : ℝ)], [2]] : List (List ℝ)), row ≠ [] := by
    intro row hr
    simp only [List.mem_cons, List.not_mem_nil, or_false] at hr
    rcases hr with h | h <;> subst h <;> exact List.cons_ne_nil _ _
  exact ⟨⟨by decide, rfl, by decide, hrows⟩,
    C10_weights_positive [0, 60] [[(1 : ℝ)], [2]] (by decide) rfl
      (by decide) hrows⟩

end Aorc
